import Mathlib

/-!
Verification of the Infinity translation-automation repository's job
orchestration behaviour: the milestone timeline of the Jobs page, the
Tauri app store's fetch actions, and the command-router / approval-gate /
knowledge-sync protocol described by the design documents.

Embedded directly from the TypeScript sources where they exist
(`Jobs` page milestone logic, `appStore` fetch actions); the Python
router/dispatcher scripts are not part of this repository snapshot, so
those components are modelled from the specification's words (each such
definition says so in its doc comment).
-/

namespace Infinity

/-! ## Milestone timeline (Jobs page) -/

/-- A recorded milestone event, as the `Milestone` interface of the app
store (`eventType`, `timestamp`, optional `payload`). -/
structure Milestone where
  eventType : String
  timestamp : String
  payload : Option String
deriving Repr, DecidableEq

/-- The `milestoneOrder` constant of the Jobs page: the fixed ordered list
of milestone event types shown in the timeline. -/
def milestoneOrder : List String :=
  ["job_created", "run_accepted", "kb_sync_done", "intent_classified",
   "round_1_done", "round_2_done", "round_3_done", "review_ready", "verified"]

/-- The Jobs page's `isMilestoneComplete`: an event type is complete when
some recorded milestone carries it. -/
def isMilestoneComplete (selectedJobMilestones : List Milestone)
    (eventType : String) : Bool :=
  selectedJobMilestones.any (fun m => m.eventType == eventType)

/-- The Jobs page's `getCurrentMilestone`: walk `milestoneOrder` and return
the first event type that is not complete; `null` (none) when all are. -/
def getCurrentMilestone (selectedJobMilestones : List Milestone) : Option String :=
  milestoneOrder.find? (fun milestone => ! isMilestoneComplete selectedJobMilestones milestone)

/-! ## App store (zustand) — data shapes and fetch actions -/

/-- The `Service` interface of the app store (camelCase view model). -/
structure Service where
  name : String
  status : String
  pid : Option Nat
  uptime : Option String
  restarts : Nat
deriving Repr, DecidableEq

/-- The `Job` interface of the app store. -/
structure Job where
  jobId : String
  status : String
  taskType : String
  sender : String
  createdAt : String
  updatedAt : String
deriving Repr, DecidableEq

/-- The `PreflightCheck` interface of the app store. -/
structure PreflightCheck where
  name : String
  key : String
  status : String
  message : String
deriving Repr, DecidableEq

/-- The `AppConfig` interface of the app store. -/
structure AppConfig where
  workRoot : String
  kbRoot : String
  strictRouter : Bool
  requireNew : Bool
  ragBackend : String
deriving Repr, DecidableEq

/-- The `Artifact` interface of the app store. -/
structure Artifact where
  name : String
  path : String
  size : Nat
  artifactType : String
deriving Repr, DecidableEq

/-- The `QualityReport` interface of the app store. -/
structure QualityReport where
  terminologyHit : Nat
  structureFidelity : Nat
  purityScore : Nat
deriving Repr, DecidableEq

/-- The `ServiceStatus` struct of `lib/tauri.ts` (raw snake_case payload). -/
structure RawServiceStatus where
  name : String
  status : String
  pid : Option Nat
  uptime : Option String
  restarts : Nat
deriving Repr, DecidableEq

/-- The raw `Job` struct of `lib/tauri.ts`. -/
structure RawJob where
  job_id : String
  status : String
  task_type : String
  sender : String
  created_at : String
  updated_at : String
deriving Repr, DecidableEq

/-- The raw `Milestone` struct of `lib/tauri.ts`. -/
structure RawMilestone where
  job_id : String
  event_type : String
  timestamp : String
  payload : Option String
deriving Repr, DecidableEq

/-- The raw `PreflightCheck` struct of `lib/tauri.ts`. -/
structure RawPreflightCheck where
  name : String
  key : String
  status : String
  message : String
deriving Repr, DecidableEq

/-- The raw `AppConfig` struct of `lib/tauri.ts`. -/
structure RawAppConfig where
  work_root : String
  kb_root : String
  strict_router : Bool
  require_new : Bool
  rag_backend : String
deriving Repr, DecidableEq

/-- The raw `Artifact` struct of `lib/tauri.ts`. -/
structure RawArtifact where
  name : String
  path : String
  size : Nat
  artifact_type : String
deriving Repr, DecidableEq

/-- The raw `QualityReport` struct of `lib/tauri.ts`. -/
structure RawQualityReport where
  terminology_hit : Nat
  structure_fidelity : Nat
  purity_score : Nat
deriving Repr, DecidableEq

/-- The data fields of the zustand `AppState` touched by the fetch
actions, plus the `error` field. -/
structure AppState where
  services : List Service
  jobs : List Job
  selectedJobId : Option String
  selectedJobMilestones : List Milestone
  selectedJobArtifacts : List Artifact
  selectedJobQuality : Option QualityReport
  preflightChecks : List PreflightCheck
  config : Option AppConfig
  isLoading : Bool
  error : Option String
deriving Repr, DecidableEq

/-- Field-by-field mapping in `fetchServices`. -/
def serviceOfRaw (s : RawServiceStatus) : Service :=
  { name := s.name, status := s.status, pid := s.pid, uptime := s.uptime,
    restarts := s.restarts }

/-- Field-by-field mapping in `fetchJobs`. -/
def jobOfRaw (j : RawJob) : Job :=
  { jobId := j.job_id, status := j.status, taskType := j.task_type,
    sender := j.sender, createdAt := j.created_at, updatedAt := j.updated_at }

/-- Field-by-field mapping in `fetchJobMilestones`. -/
def milestoneOfRaw (m : RawMilestone) : Milestone :=
  { eventType := m.event_type, timestamp := m.timestamp, payload := m.payload }

/-- Field-by-field mapping in `fetchPreflightChecks`. -/
def preflightOfRaw (c : RawPreflightCheck) : PreflightCheck :=
  { name := c.name, key := c.key, status := c.status, message := c.message }

/-- Field-by-field mapping in `fetchConfig`. -/
def configOfRaw (c : RawAppConfig) : AppConfig :=
  { workRoot := c.work_root, kbRoot := c.kb_root, strictRouter := c.strict_router,
    requireNew := c.require_new, ragBackend := c.rag_backend }

/-- Field-by-field mapping in `fetchJobArtifacts`. -/
def artifactOfRaw (a : RawArtifact) : Artifact :=
  { name := a.name, path := a.path, size := a.size, artifactType := a.artifact_type }

/-- Field-by-field mapping of the quality report in `fetchJobArtifacts`. -/
def qualityOfRaw (q : RawQualityReport) : QualityReport :=
  { terminologyHit := q.terminology_hit, structureFidelity := q.structure_fidelity,
    purityScore := q.purity_score }

/-- The store's `fetchServices` action, with the result of the awaited
`tauri.getServiceStatus()` call made explicit: the `try` branch replaces
`services` and resets `error`; the `catch` branch only sets `error`. -/
def fetchServices (result : Except String (List RawServiceStatus))
    (st : AppState) : AppState :=
  match result with
  | .ok services => { st with services := services.map serviceOfRaw, error := none }
  | .error err => { st with error := some ("Failed to fetch services: " ++ err) }

/-- The store's `fetchPreflightChecks` action. -/
def fetchPreflightChecks (result : Except String (List RawPreflightCheck))
    (st : AppState) : AppState :=
  match result with
  | .ok checks =>
      { st with preflightChecks := checks.map preflightOfRaw, error := none }
  | .error err => { st with error := some ("Failed to run preflight checks: " ++ err) }

/-- The store's `fetchConfig` action. -/
def fetchConfig (result : Except String RawAppConfig) (st : AppState) : AppState :=
  match result with
  | .ok config => { st with config := some (configOfRaw config), error := none }
  | .error err => { st with error := some ("Failed to fetch config: " ++ err) }

/-- The store's `fetchJobs` action. -/
def fetchJobs (result : Except String (List RawJob)) (st : AppState) : AppState :=
  match result with
  | .ok jobs => { st with jobs := jobs.map jobOfRaw, error := none }
  | .error err => { st with error := some ("Failed to fetch jobs: " ++ err) }

/-- The store's `fetchJobMilestones` action. -/
def fetchJobMilestones (result : Except String (List RawMilestone))
    (st : AppState) : AppState :=
  match result with
  | .ok milestones =>
      { st with selectedJobMilestones := milestones.map milestoneOfRaw, error := none }
  | .error err => { st with error := some ("Failed to fetch milestones: " ++ err) }

/-- The store's `fetchJobArtifacts` action: the quality-report call's
rejection is caught individually (`.catch(() => null)`), so only a failure
of the artifact-list call reaches the outer `catch`. -/
def fetchJobArtifacts (artifactsResult : Except String (List RawArtifact))
    (qualityResult : Except String RawQualityReport) (st : AppState) : AppState :=
  match artifactsResult with
  | .ok artifacts =>
      { st with
        selectedJobArtifacts := artifacts.map artifactOfRaw,
        selectedJobQuality := qualityResult.toOption.map qualityOfRaw,
        error := none }
  | .error err => { st with error := some ("Failed to fetch artifacts: " ++ err) }

/-- Modelled from the spec: the ordered `event_type` enum
`job_created → run_accepted → kb_sync_done → intent_classified →
round_N_done → review_ready → verified`, with `round_N_done` instantiated
for rounds 1..maxRounds. -/
def specEventSequence (maxRounds : Nat) : List String :=
  ["job_created", "run_accepted", "kb_sync_done", "intent_classified"]
    ++ (List.range maxRounds).map (fun n => "round_" ++ toString (n + 1) ++ "_done")
    ++ ["review_ready", "verified"]

/-! ## Command Router / Approval Gate (modelled from the spec)

The Python router and dispatcher scripts named by the README and
implementation notes are not part of this repository snapshot, so this
component is modelled from the specification's words (§4.1–4.3, §7). -/

/-- Modelled from the spec: the job status enum of the state machine. -/
inductive JobStatus
  | received
  | collecting
  | running
  | planned
  | missing_inputs
  | review_ready
  | needs_attention
  | needs_revision
  | verified
  | failed
deriving Repr, DecidableEq

/-- Modelled from the spec: `verified` and `failed` are the terminal
statuses. -/
def JobStatus.isTerminal : JobStatus → Bool
  | .verified => true
  | .failed => true
  | _ => false

/-- Modelled from the spec: the persistent Job row (the fields the command
protocol reads and writes). -/
structure SpecJob where
  jobId : String
  sender : String
  status : JobStatus
  inputRefs : List String
  artifacts : List String
deriving Repr, DecidableEq

/-- Modelled from the spec: router configuration — "require-new" strict
mode is a configuration option, not hardcoded. -/
structure RouterConfig where
  requireNew : Bool
deriving Repr, DecidableEq

/-- Modelled from the spec: the durable state the Command Router touches —
the job table, the `sender_active_jobs` table (one row per sender), and
the shared/final delivery tree that approval must never write to. -/
structure RouterState where
  jobs : List SpecJob
  senderActiveJobs : List (String × String)
  deliveredTree : List String
deriving Repr, DecidableEq

/-- Modelled from the spec: the error taxonomy of §7 (the approval gate's
precondition failure is reported as its own kind). -/
inductive RouterError
  | activeJobExists
  | noActiveJob
  | protocolViolation
  | approvalRejected
  | emptyReason
deriving Repr, DecidableEq

/-- Modelled from the spec: the router's outcome for one inbound command —
what the single status line reports. -/
inductive Outcome
  | jobCreated
  | implicitJobCreated
  | runStarted
  | statusReport (status : JobStatus)
  | approvedVerified
  | revisionRequested
  | rerunStarted
  | contentAppended
  | rejected (e : RouterError)
deriving Repr, DecidableEq

/-- Look a job up by id in the job table. -/
def findJob (jobs : List SpecJob) (jid : String) : Option SpecJob :=
  jobs.find? (fun j => j.jobId == jid)

/-- Modelled from the spec: resolve the sender's active job through the
`sender_active_jobs` row. -/
def activeJobOf (st : RouterState) (sender : String) : Option SpecJob :=
  (st.senderActiveJobs.lookup sender).bind (findJob st.jobs)

/-- Upsert the sender's `sender_active_jobs` row (one row per sender). -/
def setActiveJob (tbl : List (String × String)) (sender jid : String) :
    List (String × String) :=
  (sender, jid) :: tbl.filter (fun row => row.fst != sender)

/-- Set one job's status, leaving every other field and job unchanged. -/
def updateJobStatus (jobs : List SpecJob) (jid : String) (s : JobStatus) :
    List SpecJob :=
  jobs.map (fun j => if j.jobId == jid then { j with status := s } else j)

/-- Append one input reference to a collecting job. -/
def appendInput (jobs : List SpecJob) (jid content : String) : List SpecJob :=
  jobs.map (fun j =>
    if j.jobId == jid then { j with inputRefs := j.inputRefs ++ [content] } else j)

/-- A newly created job: `received → collecting` with no inputs yet. -/
def freshJob (freshId sender : String) : SpecJob :=
  { jobId := freshId, sender := sender, status := .collecting,
    inputRefs := [], artifacts := [] }

/-- Create a job and point the sender's active-job row at it. -/
def createJob (st : RouterState) (sender freshId : String) : RouterState :=
  { st with
    jobs := st.jobs ++ [freshJob freshId sender],
    senderActiveJobs := setActiveJob st.senderActiveJobs sender freshId }

/-- Does `pat` occur at the start of `s` (character lists)? -/
def startsWithChars : List Char → List Char → Bool
  | _, [] => true
  | [], _ :: _ => false
  | c :: cs, p :: ps => c == p && startsWithChars cs ps

/-- Does `pat` occur anywhere inside `s` (character lists)? -/
def containsChars : List Char → List Char → Bool
  | [], pat => pat.isEmpty
  | c :: cs, pat => startsWithChars (c :: cs) pat || containsChars cs pat

/-- Does string `s` contain `pat` as a substring? -/
def containsToken (s pat : String) : Bool :=
  containsChars s.data pat.data

/-- Does string `s` end with `pat`? -/
def endsWithToken (s pat : String) : Bool :=
  startsWithChars s.data.reverse pat.data.reverse

/-- Modelled from the spec: the manual/edited naming convention of the
Approval Gate — an artifact named `*_manual*.docx` or `*_edited*.docx`
(IMPLEMENTATION_NOTES: `approve {job_id}` requires `*_manual*.docx` or
`*_edited*.docx`). -/
def matchesManualEdited (name : String) : Bool :=
  endsWithToken name ".docx" &&
    (containsToken name "_manual" || containsToken name "_edited")

/-- Modelled from the spec: `new` — fails with `ActiveJobExistsError` and
changes nothing when the sender's active job is non-terminal; otherwise
creates a job and makes it active. -/
def handleNew (st : RouterState) (sender freshId : String) :
    Outcome × RouterState :=
  match activeJobOf st sender with
  | some j =>
      if j.status.isTerminal then (.jobCreated, createJob st sender freshId)
      else (.rejected .activeJobExists, st)
  | none => (.jobCreated, createJob st sender freshId)

/-- Modelled from the spec: `run` — valid when the active job is
collecting with at least one input; with no active job, strict
"require-new" mode fails with `ProtocolViolationError` and no state
change, while legacy mode implicitly creates a job instead. -/
def handleRun (cfg : RouterConfig) (st : RouterState) (sender freshId : String) :
    Outcome × RouterState :=
  match activeJobOf st sender with
  | some j =>
      if j.status == .collecting && !j.inputRefs.isEmpty then
        (.runStarted, { st with jobs := updateJobStatus st.jobs j.jobId .running })
      else (.rejected .protocolViolation, st)
  | none =>
      if cfg.requireNew then (.rejected .protocolViolation, st)
      else (.implicitJobCreated, createJob st sender freshId)

/-- Modelled from the spec: `status` — read-only. -/
def handleStatusQuery (st : RouterState) (sender : String) :
    Outcome × RouterState :=
  match activeJobOf st sender with
  | some j => (.statusReport j.status, st)
  | none => (.rejected .noActiveJob, st)

/-- Modelled from the spec: `ok` — the Approval Gate; succeeds only on a
`review_ready` job with a manual/edited artifact, and then only flips the
status to `verified`. -/
def handleOk (st : RouterState) (sender : String) : Outcome × RouterState :=
  match activeJobOf st sender with
  | some j =>
      if j.status == .review_ready && j.artifacts.any matchesManualEdited then
        (.approvedVerified,
         { st with jobs := updateJobStatus st.jobs j.jobId .verified })
      else (.rejected .approvalRejected, st)
  | none => (.rejected .noActiveJob, st)

/-- Modelled from the spec: `no {reason}` — requires a non-empty reason;
`review_ready → needs_revision`. -/
def handleNo (st : RouterState) (sender reason : String) :
    Outcome × RouterState :=
  if reason.isEmpty then (.rejected .emptyReason, st)
  else
    match activeJobOf st sender with
    | some j =>
        if j.status == .review_ready then
          (.revisionRequested,
           { st with jobs := updateJobStatus st.jobs j.jobId .needs_revision })
        else (.rejected .approvalRejected, st)
    | none => (.rejected .noActiveJob, st)

/-- Modelled from the spec: `rerun` — valid from `needs_revision`,
`needs_attention` or `failed`; re-enters the Dispatcher (`running`). -/
def handleRerun (st : RouterState) (sender : String) : Outcome × RouterState :=
  match activeJobOf st sender with
  | some j =>
      if j.status == .needs_revision || j.status == .needs_attention
          || j.status == .failed then
        (.rerunStarted, { st with jobs := updateJobStatus st.jobs j.jobId .running })
      else (.rejected .protocolViolation, st)
  | none => (.rejected .noActiveJob, st)

/-- Modelled from the spec: the canonical commands of the protocol. -/
inductive Command
  | new
  | run
  | statusQuery
  | ok
  | no (reason : String)
  | rerun
deriving Repr, DecidableEq

/-- Modelled from the spec: dispatch one resolved command for one sender.
`freshId` is the job id generated at creation, when one is needed. -/
def step (cfg : RouterConfig) (st : RouterState) (sender : String)
    (cmd : Command) (freshId : String) : Outcome × RouterState :=
  match cmd with
  | .new => handleNew st sender freshId
  | .run => handleRun cfg st sender freshId
  | .statusQuery => handleStatusQuery st sender
  | .ok => handleOk st sender
  | .no reason => handleNo st sender reason
  | .rerun => handleRerun st sender

/-- ASCII lowercasing of one token (character-list based). -/
def lowerToken (tok : String) : String :=
  String.mk (tok.data.map Char.toLower)

/-- Modelled from the spec: the pure legacy-alias lookup table, applied
before routing (`approve → ok`, `reject → no`). -/
def aliasTable : List (String × String) :=
  [("approve", "ok"), ("reject", "no")]

/-- Canonicalize a command token: lowercase it, then resolve legacy
aliases through the lookup table. -/
def canonicalToken (tok : String) : String :=
  match aliasTable.lookup (lowerToken tok) with
  | some canon => canon
  | none => lowerToken tok

/-- Modelled from the spec: recognize a tokenized message body as a
command, case-insensitively and after alias resolution; anything else is
task content. -/
def parseCommand (tokens : List String) : Option Command :=
  match tokens with
  | [] => none
  | tok :: rest =>
      match canonicalToken tok with
      | "new" => if rest.isEmpty then some .new else none
      | "run" => if rest.isEmpty then some .run else none
      | "status" => if rest.isEmpty then some .statusQuery else none
      | "ok" => if rest.isEmpty then some .ok else none
      | "rerun" => if rest.isEmpty then some .rerun else none
      | "no" => some (.no (String.intercalate " " rest))
      | _ => none

/-- Modelled from the spec: one piece of an inbound message body — a plain
word, or an embedded raw attachment payload marker (an inline
`<file ...>` block / binary-like payload text). -/
inductive Segment
  | word (w : String)
  | fileBlock (payload : String)
deriving Repr, DecidableEq

/-- Is this segment plain text? -/
def Segment.isWord : Segment → Bool
  | .word _ => true
  | .fileBlock _ => false

/-- Modelled from the spec: the router strips embedded raw attachment
payload markers from the body before interpreting it. -/
def strippedTokens (msg : List Segment) : List String :=
  msg.filterMap (fun seg =>
    match seg with
    | .word w => some w
    | .fileBlock _ => none)

/-- Modelled from the spec: a non-command message is task content,
appended to the sender's active collecting job. -/
def handleContent (st : RouterState) (sender content : String) :
    Outcome × RouterState :=
  match activeJobOf st sender with
  | some j =>
      if j.status == .collecting then
        (.contentAppended, { st with jobs := appendInput st.jobs j.jobId content })
      else (.rejected .protocolViolation, st)
  | none => (.rejected .noActiveJob, st)

/-- Modelled from the spec: full inbound handling — strip attachment
payload markers, parse the remaining body, then either dispatch the
command or treat the body as content. -/
def handleInbound (cfg : RouterConfig) (st : RouterState) (sender : String)
    (msg : List Segment) (freshId : String) : Outcome × RouterState :=
  let tokens := strippedTokens msg
  match parseCommand tokens with
  | some cmd => step cfg st sender cmd freshId
  | none => handleContent st sender (String.intercalate " " tokens)

/-- A short fixed name for each job status (used in the status line). -/
def statusName : JobStatus → String
  | .received => "received"
  | .collecting => "collecting"
  | .running => "running"
  | .planned => "planned"
  | .missing_inputs => "missing_inputs"
  | .review_ready => "review_ready"
  | .needs_attention => "needs_attention"
  | .needs_revision => "needs_revision"
  | .verified => "verified"
  | .failed => "failed"

/-- A short corrective message for each error kind. -/
def errorName : RouterError → String
  | .activeJobExists => "active job exists, resolve it first"
  | .noActiveJob => "no active job"
  | .protocolViolation => "command out of order"
  | .approvalRejected => "approval precondition not met"
  | .emptyReason => "a reason is required"

/-- Modelled from the spec: the user-visible reply — always one short
status line per outcome, never raw file content. -/
def renderOutcome : Outcome → String
  | .jobCreated => "OK: new job created"
  | .implicitJobCreated => "OK: job created implicitly"
  | .runStarted => "OK: run accepted"
  | .statusReport s => "STATUS: " ++ statusName s
  | .approvedVerified => "OK: job verified"
  | .revisionRequested => "OK: revision requested"
  | .rerunStarted => "OK: rerun accepted"
  | .contentAppended => "OK: content received"
  | .rejected e => "ERROR: " ++ errorName e

/-- A string is a single line when it has no newline character. -/
def singleLine (s : String) : Bool :=
  s.data.all (fun c => !(c == '\n'))

/-- The ids of all jobs in the table. -/
def jobIds (st : RouterState) : List String :=
  st.jobs.map SpecJob.jobId

/-- The jobs referenced as `sender`'s active job that are non-terminal. -/
def referencedNonTerminal (st : RouterState) (sender : String) : List SpecJob :=
  st.jobs.filter (fun j =>
    (st.senderActiveJobs.lookup sender == some j.jobId) && !j.status.isTerminal)

/-- A job's identity minus its status: id, sender, inputs, artifacts. -/
def jobSansStatus (j : SpecJob) : String × String × List String × List String :=
  (j.jobId, j.sender, j.inputRefs, j.artifacts)

/-! ## Knowledge sync (modelled from the spec) -/

/-- The observable identity of a source file: modification time and
content hash. -/
structure FileMeta where
  mtime : Nat
  hash : Nat
deriving Repr, DecidableEq

/-- One knowledge-index record: the mtime and hash recorded when the file
was last indexed. -/
structure IndexEntry where
  mtime : Nat
  hash : Nat
deriving Repr, DecidableEq

/-- Modelled from the spec: one incremental sync decision for one source
file — skip (no indexing work) when the recorded entry matches on mtime
and hash, otherwise (re)index. Returns the resulting entry and whether
indexing work was performed. -/
def syncFile (idx : List (String × IndexEntry)) (path : String) (meta : FileMeta) :
    IndexEntry × Bool :=
  match idx.lookup path with
  | some entry =>
      if entry.mtime == meta.mtime && entry.hash == meta.hash then (entry, false)
      else ({ mtime := meta.mtime, hash := meta.hash }, true)
  | none => ({ mtime := meta.mtime, hash := meta.hash }, true)

/-- Modelled from the spec: incremental knowledge sync (mtime + hash
based) over the whole source tree — the new index, plus how many files
required indexing work. -/
def kbSync (src : List (String × FileMeta)) (idx : List (String × IndexEntry)) :
    List (String × IndexEntry) × Nat :=
  (src.map (fun pm => (pm.fst, (syncFile idx pm.fst pm.snd).fst)),
   (src.filter (fun pm => (syncFile idx pm.fst pm.snd).snd)).length)

/-- Demo state for the approval-gate witness: one review-ready job with a
manually reviewed artifact, active for sender S1. -/
def demoJob : SpecJob :=
  { jobId := "job_1", sender := "S1", status := .review_ready,
    inputRefs := ["source.docx"], artifacts := ["translation_manual_v1.docx"] }

/-- Demo router state holding `demoJob`. -/
def demoSt : RouterState :=
  { jobs := [demoJob], senderActiveJobs := [("S1", "job_1")], deliveredTree := [] }

/-- Demo source tree for the knowledge-sync witness. -/
def demoSrc : List (String × FileMeta) :=
  [("glossary.docx", { mtime := 5, hash := 77 }), ("prior.pdf", { mtime := 9, hash := 13 })]

/-! ## Helper lemmas -/

/-- Updating one job's status never changes the id column. -/
theorem jobIds_updateJobStatus (jobs : List SpecJob) (jid : String) (s : JobStatus) :
    (updateJobStatus jobs jid s).map SpecJob.jobId = jobs.map SpecJob.jobId := by
  unfold updateJobStatus
  rw [List.map_map]
  apply List.map_congr_left
  intro j _
  simp only [Function.comp_apply]
  split <;> rfl

/-- Appending an input reference never changes the id column. -/
theorem jobIds_appendInput (jobs : List SpecJob) (jid content : String) :
    (appendInput jobs jid content).map SpecJob.jobId = jobs.map SpecJob.jobId := by
  unfold appendInput
  rw [List.map_map]
  apply List.map_congr_left
  intro j _
  simp only [Function.comp_apply]
  split <;> rfl

/-- Updating one job's status changes nothing but the status column. -/
theorem jobSansStatus_updateJobStatus (jobs : List SpecJob) (jid : String)
    (s : JobStatus) :
    (updateJobStatus jobs jid s).map jobSansStatus = jobs.map jobSansStatus := by
  unfold updateJobStatus
  rw [List.map_map]
  apply List.map_congr_left
  intro j _
  simp only [Function.comp_apply, jobSansStatus]
  split <;> rfl

/-- In a table whose id column has no duplicates, a filter that only keeps
rows with one fixed id keeps at most one row. -/
theorem filter_unique_id_length_le_one (a : String) (p : SpecJob → Bool)
    (hp : ∀ j, p j = true → j.jobId = a) :
    ∀ l : List SpecJob, (l.map SpecJob.jobId).Nodup → (l.filter p).length ≤ 1 := by
  intro l
  induction l with
  | nil => intro _; simp
  | cons j tl ih =>
      intro h
      rw [List.map_cons, List.nodup_cons] at h
      by_cases hj : p j = true
      · have hid : j.jobId = a := hp j hj
        have htl : tl.filter p = [] := by
          rw [List.filter_eq_nil_iff]
          intro x hx hpx
          apply h.1
          rw [hid, ← hp x hpx]
          exact List.mem_map_of_mem SpecJob.jobId hx
        simp [hj, htl]
      · rw [List.filter_cons_of_neg (by simpa using hj)]
        exact ih h.2

/-- Every router command leaves the job-id column unchanged or appends the
freshly generated id. -/
theorem jobIds_step (cfg : RouterConfig) (st : RouterState) (sender : String)
    (cmd : Command) (fid : String) :
    jobIds (step cfg st sender cmd fid).snd = jobIds st ∨
    jobIds (step cfg st sender cmd fid).snd = jobIds st ++ [fid] := by
  cases cmd
  all_goals
    simp only [step, handleNew, handleRun, handleStatusQuery, handleOk, handleNo,
      handleRerun]
  all_goals
    repeat' split
  all_goals
    simp [jobIds, createJob, freshJob, jobIds_updateJobStatus, jobIds_appendInput]

/-- C1: with a duplicate-free job table, the `sender_active_jobs` row of
any sender references at most one non-terminal job; a `new` command issued
while the sender's active job is non-terminal fails with
`ActiveJobExistsError` and leaves the state (hence the job table)
untouched; and every command preserves duplicate-freeness of the job
table when the generated id is fresh. -/
theorem sender_active_job_invariant :
    (∀ (st : RouterState) (sender : String), (jobIds st).Nodup →
        (referencedNonTerminal st sender).length ≤ 1) ∧
    (∀ (cfg : RouterConfig) (st : RouterState) (sender : String) (j : SpecJob)
        (fid : String),
        activeJobOf st sender = some j → j.status.isTerminal = false →
        step cfg st sender .new fid = (.rejected .activeJobExists, st)) ∧
    (∀ (cfg : RouterConfig) (st : RouterState) (sender fid : String)
        (cmd : Command),
        (jobIds st).Nodup → fid ∉ jobIds st →
        (jobIds (step cfg st sender cmd fid).snd).Nodup) := by
  refine ⟨?_, ?_, ?_⟩
  · intro st sender h
    unfold referencedNonTerminal
    cases hl : st.senderActiveJobs.lookup sender with
    | none => simp [hl]
    | some a =>
        apply filter_unique_id_length_le_one a _ ?_ st.jobs h
        intro j hj
        simp only [hl, Bool.and_eq_true, beq_iff_eq, Option.some.injEq] at hj
        exact hj.1.symm
  · intro cfg st sender j fid hj ht
    simp [step, handleNew, hj, ht]
  · intro cfg st sender fid cmd hnd hfresh
    rcases jobIds_step cfg st sender cmd fid with h | h
    · rw [h]; exact hnd
    · rw [h, List.nodup_append]
      exact ⟨hnd, List.nodup_singleton fid, by simpa [List.disjoint_singleton]⟩

/-- C5: require-new mode is carried by the router configuration, not
hardcoded: with the mode enabled and no active job, `run` fails with
`ProtocolViolationError` and changes no state; with the mode disabled the
same `run` does not raise that failure. -/
theorem require_new_mode_configurable :
    (∀ (st : RouterState) (sender fid : String),
        activeJobOf st sender = none →
        step { requireNew := true } st sender .run fid =
          (.rejected .protocolViolation, st)) ∧
    (∀ (st : RouterState) (sender fid : String),
        activeJobOf st sender = none →
        (step { requireNew := false } st sender .run fid).fst ≠
          .rejected .protocolViolation) := by
  constructor
  · intro st sender fid h
    simp [step, handleRun, h]
  · intro st sender fid h
    simp [step, handleRun, h]

/-- C2: the `ok` command succeeds exactly when the targeted job is
`review_ready` and some produced artifact matches the manual/edited naming
convention; on success it only flips the status to `verified`, and in
every case it never moves or copies artifacts, never rebinds the sender's
active-job row, and never writes to the delivery tree. -/
theorem approval_gate_ok (st : RouterState) (sender : String) (j : SpecJob)
    (hj : activeJobOf st sender = some j) :
    ((handleOk st sender).fst = .approvedVerified ↔
        j.status = .review_ready ∧ ∃ a ∈ j.artifacts, matchesManualEdited a = true) ∧
    ((handleOk st sender).fst = .approvedVerified →
        (handleOk st sender).snd =
          { st with jobs := updateJobStatus st.jobs j.jobId .verified }) ∧
    (handleOk st sender).snd.jobs.map jobSansStatus = st.jobs.map jobSansStatus ∧
    (handleOk st sender).snd.senderActiveJobs = st.senderActiveJobs ∧
    (handleOk st sender).snd.deliveredTree = st.deliveredTree := by
  by_cases hc : (j.status == .review_ready && j.artifacts.any matchesManualEdited) = true
  · have hout : handleOk st sender =
        (.approvedVerified, { st with jobs := updateJobStatus st.jobs j.jobId .verified }) := by
      simp [handleOk, hj, hc]
    rw [hout]
    simp only [Bool.and_eq_true, beq_iff_eq, List.any_eq_true] at hc
    exact ⟨by simpa using hc, fun _ => rfl, jobSansStatus_updateJobStatus st.jobs j.jobId .verified,
      rfl, rfl⟩
  · have hout : handleOk st sender = (.rejected .approvalRejected, st) := by
      simp only [handleOk, hj]
      rw [if_neg hc]
    rw [hout]
    simp only [Bool.and_eq_true, beq_iff_eq, List.any_eq_true] at hc
    constructor
    · constructor
      · intro habs
        exact absurd habs (by simp)
      · intro hr
        exact absurd hr hc
    · exact ⟨fun habs => absurd habs (by simp), rfl, rfl, rfl⟩

/-- Witness for C2 at a concrete review-ready job with a manually
reviewed artifact. -/
theorem approval_gate_ok_witness :
    (handleOk demoSt "S1").fst = .approvedVerified ↔
      demoJob.status = .review_ready ∧
      ∃ a ∈ demoJob.artifacts, matchesManualEdited a = true :=
  (approval_gate_ok demoSt "S1" demoJob (by decide)).1

/-- Decoding `Char.ofNat` of a small scalar gives back the same value. -/
theorem toNat_Char_ofNat_of_lt {m : Nat} (h : m < 55296) :
    (Char.ofNat m).toNat = m := by
  have hv : m.isValidChar := Or.inl h
  unfold Char.ofNat
  rw [dif_pos hv]
  rfl

/-- ASCII lowercasing of a character is idempotent. -/
theorem Char_toLower_idem (c : Char) : c.toLower.toLower = c.toLower := by
  by_cases h : c.toNat ≥ 65 ∧ c.toNat ≤ 90
  · have h1 : c.toLower = Char.ofNat (c.toNat + 32) := by
      simp only [Char.toLower]
      rw [if_pos h]
    have h2 : (Char.ofNat (c.toNat + 32)).toNat = c.toNat + 32 :=
      toNat_Char_ofNat_of_lt (by omega)
    rw [h1]
    simp only [Char.toLower]
    rw [if_neg (by rw [h2]; omega)]
  · have h1 : c.toLower = c := by
      simp only [Char.toLower]
      rw [if_neg h]
    rw [h1, h1]

/-- Lowercasing a token is idempotent. -/
theorem lowerToken_idem (tok : String) :
    lowerToken (lowerToken tok) = lowerToken tok := by
  unfold lowerToken
  apply congrArg String.mk
  rw [List.map_map]
  apply List.map_congr_left
  intro c _
  exact Char_toLower_idem c

/-- Canonicalization does not care about the token's case. -/
theorem canonicalToken_lowerToken (tok : String) :
    canonicalToken (lowerToken tok) = canonicalToken tok := by
  unfold canonicalToken
  rw [lowerToken_idem]

/-- Stripping the non-word segments does not change the token stream the
router works on. -/
theorem strippedTokens_filter_isWord (msg : List Segment) :
    strippedTokens (msg.filter Segment.isWord) = strippedTokens msg := by
  induction msg with
  | nil => rfl
  | cons seg tl ih =>
      cases seg <;>
        simp [strippedTokens, Segment.isWord, List.filter_cons] at ih ⊢ <;>
        exact ih

/-- C6: the Command Router ignores embedded raw attachment payload
segments — handling a message is identical to handling the message with
all payload segments stripped — and every reply it can produce is a
single status line that contains no newline and no inline file block. -/
theorem router_ignores_payload_and_replies_one_line :
    (∀ (cfg : RouterConfig) (st : RouterState) (sender fid : String)
        (msg : List Segment),
        handleInbound cfg st sender msg fid =
          handleInbound cfg st sender (msg.filter Segment.isWord) fid) ∧
    (∀ o : Outcome, singleLine (renderOutcome o) = true ∧
        containsToken (renderOutcome o) "<file" = false) := by
  constructor
  · intro cfg st sender fid msg
    simp only [handleInbound, strippedTokens_filter_isWord]
  · intro o
    cases o with
    | statusReport s => cases s <;> exact ⟨by decide, by decide⟩
    | rejected e => cases e <;> exact ⟨by decide, by decide⟩
    | jobCreated => exact ⟨by decide, by decide⟩
    | implicitJobCreated => exact ⟨by decide, by decide⟩
    | runStarted => exact ⟨by decide, by decide⟩
    | approvedVerified => exact ⟨by decide, by decide⟩
    | revisionRequested => exact ⟨by decide, by decide⟩
    | rerunStarted => exact ⟨by decide, by decide⟩
    | contentAppended => exact ⟨by decide, by decide⟩

/-- C8: the legacy aliases resolve identically to their canonical
commands for every configuration, state, sender and fresh id; command
recognition is invariant under lowercasing the command token; and the
usual upper/mixed-case spellings parse to the canonical commands. -/
theorem legacy_aliases_resolve_identically :
    (∀ (cfg : RouterConfig) (st : RouterState) (sender fid : String),
        handleInbound cfg st sender [Segment.word "approve"] fid =
          handleInbound cfg st sender [Segment.word "ok"] fid) ∧
    (∀ (cfg : RouterConfig) (st : RouterState) (sender fid reason : String),
        handleInbound cfg st sender [Segment.word "reject", Segment.word reason] fid =
          handleInbound cfg st sender [Segment.word "no", Segment.word reason] fid) ∧
    (∀ (tok : String) (rest : List String),
        parseCommand (lowerToken tok :: rest) = parseCommand (tok :: rest)) ∧
    (parseCommand ["APPROVE"] = some .ok ∧ parseCommand ["Approve"] = some .ok ∧
     parseCommand ["REJECT", "x"] = some (.no "x") ∧
     parseCommand ["NEW"] = some .new ∧ parseCommand ["Run"] = some .run ∧
     parseCommand ["STATUS"] = some .statusQuery ∧ parseCommand ["OK"] = some .ok ∧
     parseCommand ["RERUN"] = some .rerun ∧
     parseCommand ["no", "reason", "text"] = some (.no "reason text")) := by
  have happrove : parseCommand ["approve"] = some .ok := by decide
  have hok : parseCommand ["ok"] = some .ok := by decide
  have hreject : ∀ reason : String,
      parseCommand ["reject", reason] = some (.no reason) := by
    intro reason
    have : canonicalToken "reject" = "no" := by decide
    simp [parseCommand, this, String.intercalate]
    rfl
  have hno : ∀ reason : String,
      parseCommand ["no", reason] = some (.no reason) := by
    intro reason
    have : canonicalToken "no" = "no" := by decide
    simp [parseCommand, this, String.intercalate]
    rfl
  refine ⟨?_, ?_, ?_, ?_⟩
  · intro cfg st sender fid
    simp only [handleInbound, strippedTokens, List.filterMap_cons, List.filterMap_nil,
      happrove, hok]
  · intro cfg st sender fid reason
    simp only [handleInbound, strippedTokens, List.filterMap_cons, List.filterMap_nil,
      hreject, hno]
  · intro tok rest
    simp only [parseCommand, canonicalToken_lowerToken]
  · refine ⟨by decide, by decide, ?_, by decide, by decide, by decide, by decide,
      by decide, ?_⟩
    · have : canonicalToken "REJECT" = "no" := by decide
      simp [parseCommand, this, String.intercalate]
      rfl
    · have : canonicalToken "no" = "no" := by decide
      simp [parseCommand, this, String.intercalate]
      rfl

/-- The entry a sync decision produces always records the source file's
current mtime and hash. -/
theorem syncFile_fst_meta (idx : List (String × IndexEntry)) (p : String)
    (m : FileMeta) :
    (syncFile idx p m).fst.mtime = m.mtime ∧ (syncFile idx p m).fst.hash = m.hash := by
  cases hl : idx.lookup p with
  | none => simp [syncFile, hl]
  | some entry =>
      by_cases h1 : entry.mtime = m.mtime
      · by_cases h2 : entry.hash = m.hash
        · simp [syncFile, hl, h1, h2]
        · simp [syncFile, hl, h1, h2]
      · simp [syncFile, hl, h1]

/-- Looking a present key up in a keyed map over a duplicate-free source
list returns the value computed for that key. -/
theorem lookup_keyed_map (f : String → FileMeta → IndexEntry) :
    ∀ (src : List (String × FileMeta)) (p : String) (m : FileMeta),
      (p, m) ∈ src → (src.map Prod.fst).Nodup →
      (src.map (fun pm => (pm.fst, f pm.fst pm.snd))).lookup p = some (f p m) := by
  intro src
  induction src with
  | nil => intro p m hmem _; cases hmem
  | cons a tl ih =>
      intro p m hmem hnd
      rw [List.map_cons, List.nodup_cons] at hnd
      rcases List.mem_cons.mp hmem with heq | htl
      · subst heq
        simp [List.lookup]
      · have hne : a.fst ≠ p := by
          intro habs
          exact hnd.1 (habs ▸ List.mem_map_of_mem Prod.fst htl)
        have hpne : (p == a.fst) = false := by
          simpa [beq_eq_false_iff_ne] using fun habs => hne habs.symm
        simp only [List.map_cons, List.lookup, hpne]
        exact ih p m htl hnd.2

/-- C7: knowledge sync is idempotent — running the sync again over an
unchanged source tree performs zero indexing work and leaves the index
exactly as the first run produced it. -/
theorem kbSync_idempotent (src : List (String × FileMeta))
    (idx : List (String × IndexEntry)) (h : (src.map Prod.fst).Nodup) :
    kbSync src (kbSync src idx).fst = ((kbSync src idx).fst, 0) := by
  have key : ∀ pm ∈ src,
      syncFile (kbSync src idx).fst pm.fst pm.snd =
        ((syncFile idx pm.fst pm.snd).fst, false) := by
    intro pm hmem
    obtain ⟨e, he⟩ : ∃ e, (syncFile idx pm.fst pm.snd).fst = e := ⟨_, rfl⟩
    have hl : (kbSync src idx).fst.lookup pm.fst = some e := by
      rw [← he]
      exact lookup_keyed_map (fun p m => (syncFile idx p m).fst) src pm.fst pm.snd
        (by simpa using hmem) h
    have hm1 : e.mtime = pm.snd.mtime := by
      rw [← he]; exact (syncFile_fst_meta idx pm.fst pm.snd).1
    have hm2 : e.hash = pm.snd.hash := by
      rw [← he]; exact (syncFile_fst_meta idx pm.fst pm.snd).2
    rw [he]
    simp [syncFile, hl, hm1, hm2]
  have hfst : (kbSync src (kbSync src idx).fst).fst = (kbSync src idx).fst := by
    show src.map
        (fun pm => (pm.fst, (syncFile (kbSync src idx).fst pm.fst pm.snd).fst)) =
      src.map (fun pm => (pm.fst, (syncFile idx pm.fst pm.snd).fst))
    apply List.map_congr_left
    intro pm hmem
    rw [key pm hmem]
  have hsnd : (kbSync src (kbSync src idx).fst).snd = 0 := by
    show (src.filter
        (fun pm => (syncFile (kbSync src idx).fst pm.fst pm.snd).snd)).length = 0
    rw [List.length_eq_zero, List.filter_eq_nil_iff]
    intro pm hmem
    rw [key pm hmem]
    simp
  have hpair : kbSync src (kbSync src idx).fst =
      ((kbSync src (kbSync src idx).fst).fst,
       (kbSync src (kbSync src idx).fst).snd) := rfl
  rw [hpair, hfst, hsnd]

/-- Witness for C7 on a concrete two-file source tree. -/
theorem kbSync_idempotent_witness :
    kbSync demoSrc (kbSync demoSrc []).fst = ((kbSync demoSrc []).fst, 0) :=
  kbSync_idempotent demoSrc [] (by decide)

/-- C9: every data-fetch action of the app store is atomic on error — a
failed invoke leaves every data field as it was and only sets `error` to a
failure message — and on success replaces exactly the fetched field and
resets `error` to `none`. Stated as record equalities, so all fields not
mentioned in the update are asserted unchanged. -/
theorem fetch_actions_atomic :
    (∀ (st : AppState) (err : String),
        fetchServices (.error err) st =
          { st with error := some ("Failed to fetch services: " ++ err) } ∧
        fetchPreflightChecks (.error err) st =
          { st with error := some ("Failed to run preflight checks: " ++ err) } ∧
        fetchConfig (.error err) st =
          { st with error := some ("Failed to fetch config: " ++ err) } ∧
        fetchJobs (.error err) st =
          { st with error := some ("Failed to fetch jobs: " ++ err) } ∧
        fetchJobMilestones (.error err) st =
          { st with error := some ("Failed to fetch milestones: " ++ err) } ∧
        ∀ q, fetchJobArtifacts (.error err) q st =
          { st with error := some ("Failed to fetch artifacts: " ++ err) }) ∧
    (∀ (st : AppState),
        (∀ raw, fetchServices (.ok raw) st =
          { st with services := raw.map serviceOfRaw, error := none }) ∧
        (∀ raw, fetchPreflightChecks (.ok raw) st =
          { st with preflightChecks := raw.map preflightOfRaw, error := none }) ∧
        (∀ raw, fetchConfig (.ok raw) st =
          { st with config := some (configOfRaw raw), error := none }) ∧
        (∀ raw, fetchJobs (.ok raw) st =
          { st with jobs := raw.map jobOfRaw, error := none }) ∧
        (∀ raw, fetchJobMilestones (.ok raw) st =
          { st with selectedJobMilestones := raw.map milestoneOfRaw, error := none }) ∧
        (∀ raw q, fetchJobArtifacts (.ok raw) q st =
          { st with selectedJobArtifacts := raw.map artifactOfRaw,
                    selectedJobQuality := q.toOption.map qualityOfRaw,
                    error := none })) := by
  exact ⟨fun st err => ⟨rfl, rfl, rfl, rfl, rfl, fun q => rfl⟩,
         fun st => ⟨fun raw => rfl, fun raw => rfl, fun raw => rfl, fun raw => rfl,
                    fun raw => rfl, fun raw q => rfl⟩⟩

/-- C4: the milestone event sequence used to track a job's lifecycle is
exactly the spec's ordered enum with `round_N_done` instantiated for the
default round budget of 3, and its nine entries are distinct. -/
theorem milestoneOrder_is_spec_sequence :
    milestoneOrder = specEventSequence 3 ∧
    milestoneOrder.length = 9 ∧ milestoneOrder.Nodup := by
  refine ⟨by decide, by decide, by decide⟩

/-- C3: a job's derived stage is computed only from the recorded
milestones — an event type is reported complete exactly when a milestone
of that type is in the list — and completeness is monotonic under
appending further milestones. -/
theorem milestone_stage_from_events_monotone :
    (∀ (ms : List Milestone) (e : String),
        isMilestoneComplete ms e = true ↔ ∃ m ∈ ms, m.eventType = e) ∧
    (∀ (ms extra : List Milestone) (e : String),
        isMilestoneComplete ms e = true →
          isMilestoneComplete (ms ++ extra) e = true) := by
  constructor
  · intro ms e
    simp [isMilestoneComplete, List.any_eq_true]
  · intro ms extra e h
    simp only [isMilestoneComplete, List.any_append, Bool.or_eq_true]
    exact Or.inl h

/-- C10: the derived current stage is the first element of the fixed
nine-element milestone order that is not present in the recorded list, and
it is `none` exactly when every element of the order is present. -/
theorem getCurrentMilestone_first_missing (ms : List Milestone) :
    (getCurrentMilestone ms = none ↔
        ∀ e ∈ milestoneOrder, isMilestoneComplete ms e = true) ∧
    (∀ e : String, getCurrentMilestone ms = some e ↔
        isMilestoneComplete ms e = false ∧
        ∃ pre post, milestoneOrder = pre ++ e :: post ∧
          ∀ x ∈ pre, isMilestoneComplete ms x = true) := by
  constructor
  · simp [getCurrentMilestone, List.find?_eq_none]
  · intro e
    rw [getCurrentMilestone, List.find?_eq_some]
    simp

end Infinity
